import Mathlib

/-
Verification of the NFCHidEmulator repository.

The repository has two source variants:
  * src/index.js           (NutJS variant, with a duplicate-suppression guard)
  * src/unnamed/part_000   (robotjs variant, without any guard)

This file gives a shallow embedding of the pure core of both variants:
  * findNdefData        - the TLV / header scanner (identical in both files)
  * filterTextRecords   - the text-record selection (records.filter type == "T")
  * handleCard          - the per-card event handler of src/index.js, with the
                          processingCard / lastProcessedCard guard; the external
                          reader.read, ndef.decodeMessage and ndef.text.decodePayload
                          collaborators are parameters of a CardEnv record, each
                          modelled as Except (they may throw).  The handler is run
                          to quiescence: the setTimeout that resets processingCard
                          1000 ms after a successful replay is folded into the
                          final state of the event.
  * handleCardOff       - the card.off handler of src/index.js
  * typeTextKeys        - the keystroke sequence emitted by typeText of
                          src/index.js (chunk loop of size 50; the chunk
                          boundaries only insert scheduling yields, which emit
                          no keystrokes)
  * typeTextKeysV0      - the keystroke sequence emitted by typeText of
                          src/unnamed/part_000 (batches of 10; the setImmediate
                          reschedule resumes at the same index, so it emits the
                          same sequence)
  * runPipelineV0       - the per-card pipeline of src/unnamed/part_000, which
                          keeps no state and has no guard
-/

namespace NFCHid

/-- Bytes of the raw tag dump are read as JS numbers; we use Nat. -/
abbrev Byte := Nat

/-- A record as returned by ndef.decodeMessage: a Type-Name-Format value,
a type string and a payload. -/
structure NdefRecord where
  tnf : Nat
  type : String
  payload : List Byte
deriving DecidableEq

/-- The mutable module state of src/index.js: lastProcessedCard (a uid or null)
and the processingCard flag. -/
structure SessionState where
  lastProcessedCard : Option String
  processingCard : Bool
deriving DecidableEq

/-- How one run of the per-card handler of src/index.js ends. -/
inductive Outcome where
  | suppressed
  | errorCaught
  | noNdef
  | noText
  | replayed (text : String)
deriving DecidableEq

/-- The external collaborators used by one card event: reader.read (line 50),
ndef.decodeMessage (line 62) and ndef.text.decodePayload (line 74).  Each may
throw, modelled by Except. -/
structure CardEnv where
  readResult : Except Unit (List Byte)
  decode : List Byte → Except Unit (List NdefRecord)
  decodePayload : List Byte → Except Unit String

/-- Condition under which the first loop of findNdefData returns at index i:
data[i] === 0x03 and i + 2 + data[i + 1] <= data.length (lines 114-116). -/
def validTlvAt (data : List Byte) (i : Nat) : Bool :=
  data.getD i 0 == 3 && decide (i + 2 + data.getD (i + 1) 0 ≤ data.length)

/-- Condition under which the fallback loop of findNdefData returns at index i:
the header byte has the Message-Begin bit set and a TNF in [1,6] (lines 124-128). -/
def ndefHeaderAt (data : List Byte) (i : Nat) : Bool :=
  Nat.land (data.getD i 0) 128 != 0 &&
    decide (1 ≤ Nat.land (data.getD i 0) 7) && decide (Nat.land (data.getD i 0) 7 ≤ 6)

/-- A JS for-loop that returns the first index i, starting at i and running for
fuel iterations, at which f holds; none if the loop leaves without returning. -/
def scanFirst (f : Nat → Bool) : Nat → Nat → Option Nat
  | 0, _ => none
  | fuel + 1, i => if f i then some i else scanFirst f fuel (i + 1)

/-- findNdefData of src/index.js lines 111-134 (identical in part_000 lines
78-101).  The first loop runs for i < data.length - 2, the fallback for
i < data.length - 3; truncated Nat subtraction agrees with the JS bound, which
is negative for short buffers so that the loop body never runs.  data.slice(a, b)
is drop a followed by take (b - a). -/
def findNdefData (data : List Byte) : Option (List Byte) :=
  match scanFirst (validTlvAt data) (data.length - 2) 0 with
  | some i => some ((data.drop (i + 2)).take (data.getD (i + 1) 0))
  | none =>
    match scanFirst (ndefHeaderAt data) (data.length - 3) 0 with
    | some i => some (data.drop i)
    | none => none

/-- records.filter((record) => record.type === "T") of src/index.js line 65
(part_000 line 48). -/
def filterTextRecords (records : List NdefRecord) : List NdefRecord :=
  records.filter (fun r => r.type == "T")

/-- The card handler of src/index.js lines 32-90.  The guard (line 37) drops the
event when processingCard is set or lastProcessedCard equals the uid; otherwise
processingCard is set and lastProcessedCard is assigned the uid (lines 42-43)
before the try block, and every terminating path of the try/catch writes
processingCard = false (lines 57, 69, 82-85, 88), the successful path doing so
through a 1000 ms setTimeout which we fold into the event. -/
def handleCard (s : SessionState) (cardId : String) (env : CardEnv) :
    SessionState × Outcome :=
  if s.processingCard || s.lastProcessedCard == some cardId then
    (s, Outcome.suppressed)
  else
    match env.readResult with
    | Except.error _ => (⟨some cardId, false⟩, Outcome.errorCaught)
    | Except.ok data =>
      match findNdefData data with
      | none => (⟨some cardId, false⟩, Outcome.noNdef)
      | some ndefData =>
        match env.decode ndefData with
        | Except.error _ => (⟨some cardId, false⟩, Outcome.errorCaught)
        | Except.ok records =>
          match filterTextRecords records with
          | [] => (⟨some cardId, false⟩, Outcome.noText)
          | r :: _ =>
            match env.decodePayload r.payload with
            | Except.error _ => (⟨some cardId, false⟩, Outcome.errorCaught)
            | Except.ok text => (⟨some cardId, false⟩, Outcome.replayed text)

/-- The card.off handler of src/index.js lines 95-100: clears lastProcessedCard
only when it equals the removed uid. -/
def handleCardOff (s : SessionState) (cardId : String) : SessionState :=
  if s.lastProcessedCard == some cardId then ⟨none, s.processingCard⟩ else s

theorem scanFirst_eq_some (f : Nat → Bool) (fuel : Nat) :
    ∀ i p : Nat, i ≤ p → p < i + fuel → f p = true →
      (∀ q, i ≤ q → q < p → f q = false) → scanFirst f fuel i = some p := by
  induction fuel with
  | zero => intro i p h1 h2 _ _; omega
  | succ n ih =>
    intro i p h1 h2 hp hmin
    by_cases hfi : f i = true
    · have hip : i = p := by
        rcases Nat.eq_or_lt_of_le h1 with h | h
        · exact h
        · have := hmin i le_rfl h
          rw [hfi] at this
          exact absurd this (by simp)
      rw [scanFirst, hfi]
      simp [hip]
    · have hfi2 : f i = false := by
        cases h : f i
        · rfl
        · exact absurd h hfi
      rw [scanFirst, hfi2]
      simp only [Bool.false_eq_true, if_false]
      have hip : i < p := by
        rcases Nat.eq_or_lt_of_le h1 with h | h
        · rw [h] at hfi2; rw [hfi2] at hp; exact absurd hp (by simp)
        · exact h
      exact ih (i + 1) p hip (by omega) hp (fun q hq1 hq2 => hmin q (by omega) hq2)

theorem scanFirst_eq_none (f : Nat → Bool) (fuel : Nat) :
    ∀ i : Nat, (∀ q, i ≤ q → q < i + fuel → f q = false) → scanFirst f fuel i = none := by
  induction fuel with
  | zero => intro i _; rfl
  | succ n ih =>
    intro i h
    have hfi : f i = false := h i le_rfl (by omega)
    rw [scanFirst, hfi]
    simp only [Bool.false_eq_true, if_false]
    exact ih (i + 1) (fun q hq1 hq2 => h q (by omega) (by omega))

/-- Concrete environments used by witnesses and counterexamples. -/
def errEnv : CardEnv :=
  ⟨Except.error (), fun _ => Except.error (), fun _ => Except.error ()⟩

/-- A fully successful environment: the read yields a buffer whose TLV scan finds
the span [209], the decoder yields one well-known text record and the payload
decodes to "hi". -/
def okEnv : CardEnv :=
  ⟨Except.ok [3, 1, 209],
    fun _ => Except.ok [⟨1, "T", [2, 101, 110, 104, 105]⟩],
    fun _ => Except.ok "hi"⟩

/-- C1 counterexample: the buffer [0x00, 0x03, 0x00] holds a valid TLV in the
sense of the claim at p = 1 (byte 0x03, length byte L = 0, p + 2 + L = 3 ≤ 3),
and p = 1 is the leftmost such position, so the claim requires the empty span;
findNdefData returns null because the first loop only scans i < length - 2. -/
theorem tlv_last_position_counterexample :
    ([0, 3, 0] : List Byte).getD 1 0 = 3 ∧
      1 + 2 + ([0, 3, 0] : List Byte).getD 2 0 ≤ ([0, 3, 0] : List Byte).length ∧
      (∀ q, q < 1 → ¬(([0, 3, 0] : List Byte).getD q 0 = 3 ∧
        q + 2 + ([0, 3, 0] : List Byte).getD (q + 1) 0 ≤ ([0, 3, 0] : List Byte).length)) ∧
      findNdefData [0, 3, 0] = none := by
  refine ⟨rfl, by decide, by decide, ?_⟩
  rfl

/-- C1 (amended): for every buffer with a valid 0x03 TLV at a position
p < length - 2, findNdefData returns exactly the L bytes at [p + 2, p + 2 + L)
for the leftmost valid position; a 0x03 whose length byte would overrun the
buffer is skipped and scanning continues from the next byte (hmin only rules
out earlier positions that are valid, not earlier 0x03 bytes as such). -/
theorem findNdefData_tlv (data : List Byte) (p : Nat)
    (hp : p < data.length - 2)
    (h3 : data.getD p 0 = 3)
    (hfit : p + 2 + data.getD (p + 1) 0 ≤ data.length)
    (hmin : ∀ q, q < p → ¬(data.getD q 0 = 3 ∧ q + 2 + data.getD (q + 1) 0 ≤ data.length)) :
    findNdefData data = some ((data.drop (p + 2)).take (data.getD (p + 1) 0)) := by
  have hscan : scanFirst (validTlvAt data) (data.length - 2) 0 = some p := by
    apply scanFirst_eq_some
    · exact Nat.zero_le p
    · omega
    · simp only [validTlvAt, Bool.and_eq_true, beq_iff_eq, decide_eq_true_eq]
      exact ⟨h3, hfit⟩
    · intro q _ hq
      cases hval : validTlvAt data q
      · rfl
      · exfalso
        simp only [validTlvAt, Bool.and_eq_true, beq_iff_eq, decide_eq_true_eq] at hval
        exact hmin q hq hval
  simp only [findNdefData, hscan]

theorem findNdefData_tlv_witness :
    findNdefData [3, 200, 3, 1, 7, 9] = some [7] := by
  have h := findNdefData_tlv [3, 200, 3, 1, 7, 9] 2 (by decide) (by decide) (by decide)
    (by decide)
  simpa using h

/-- C6 counterexample: the buffer [0x00, 0xD1, 0x00] contains no 0x03 byte at
all, and byte 0xD1 at position 1 has the Message-Begin bit set and TNF = 1, so
the claim requires the suffix [0xD1, 0x00]; findNdefData returns null because
the fallback loop only scans i < length - 3. -/
theorem fallback_tail_counterexample :
    (∀ q, q < ([0, 209, 0] : List Byte).length → ([0, 209, 0] : List Byte).getD q 0 ≠ 3) ∧
      Nat.land (([0, 209, 0] : List Byte).getD 1 0) 128 ≠ 0 ∧
      1 ≤ Nat.land (([0, 209, 0] : List Byte).getD 1 0) 7 ∧
      Nat.land (([0, 209, 0] : List Byte).getD 1 0) 7 ≤ 6 ∧
      findNdefData [0, 209, 0] = none := by
  refine ⟨by decide, by decide, by decide, by decide, ?_⟩
  rfl

/-- C6 (amended): for every buffer with no valid 0x03 TLV anywhere but with a
header byte (Message-Begin bit set, TNF in [1,6]) at some position
p < length - 3, findNdefData returns the suffix starting at the leftmost such
position; a header byte occurring only within the last three bytes is not
found. -/
theorem findNdefData_fallback (data : List Byte) (p : Nat)
    (hnotlv : ∀ q, q < data.length →
      ¬(data.getD q 0 = 3 ∧ q + 2 + data.getD (q + 1) 0 ≤ data.length))
    (hp : p < data.length - 3)
    (hmb : Nat.land (data.getD p 0) 128 ≠ 0)
    (htnf1 : 1 ≤ Nat.land (data.getD p 0) 7)
    (htnf6 : Nat.land (data.getD p 0) 7 ≤ 6)
    (hmin : ∀ q, q < p → ¬(Nat.land (data.getD q 0) 128 ≠ 0 ∧
      1 ≤ Nat.land (data.getD q 0) 7 ∧ Nat.land (data.getD q 0) 7 ≤ 6)) :
    findNdefData data = some (data.drop p) := by
  have hscan1 : scanFirst (validTlvAt data) (data.length - 2) 0 = none := by
    apply scanFirst_eq_none
    intro q _ hq
    cases hval : validTlvAt data q
    · rfl
    · exfalso
      simp only [validTlvAt, Bool.and_eq_true, beq_iff_eq, decide_eq_true_eq] at hval
      exact hnotlv q (by omega) hval
  have hscan2 : scanFirst (ndefHeaderAt data) (data.length - 3) 0 = some p := by
    apply scanFirst_eq_some
    · exact Nat.zero_le p
    · omega
    · simp only [ndefHeaderAt, Bool.and_eq_true, bne_iff_ne, ne_eq, decide_eq_true_eq]
      exact ⟨⟨hmb, htnf1⟩, htnf6⟩
    · intro q _ hq
      cases hval : ndefHeaderAt data q
      · rfl
      · exfalso
        simp only [ndefHeaderAt, Bool.and_eq_true, bne_iff_ne, ne_eq,
          decide_eq_true_eq] at hval
        exact hmin q hq ⟨hval.1.1, hval.1.2, hval.2⟩
  simp only [findNdefData, hscan1, hscan2]

theorem findNdefData_fallback_witness :
    findNdefData [0, 209, 0, 0, 0] = some [209, 0, 0, 0] := by
  have h := findNdefData_fallback [0, 209, 0, 0, 0] 1 (by decide) (by decide) (by decide)
    (by decide) (by decide) (by decide)
  simpa using h

/-- C8: a buffer with neither a valid 0x03 TLV anywhere nor any header byte
with Message-Begin set and TNF in [1,6] - and likewise every buffer shorter
than 3 bytes - makes findNdefData return null, and the card handler then
performs no decode and no replay: whatever the session state, the uid and the
decoder collaborators, the outcome of the event is suppressed or noNdef. -/
theorem findNdefData_noMatch (data : List Byte)
    (h : ((∀ q, q < data.length →
        ¬(data.getD q 0 = 3 ∧ q + 2 + data.getD (q + 1) 0 ≤ data.length)) ∧
      (∀ q, q < data.length → ¬(Nat.land (data.getD q 0) 128 ≠ 0 ∧
        1 ≤ Nat.land (data.getD q 0) 7 ∧ Nat.land (data.getD q 0) 7 ≤ 6))) ∨
      data.length < 3) :
    findNdefData data = none ∧
      ∀ (s : SessionState) (cardId : String)
        (dec : List Byte → Except Unit (List NdefRecord))
        (dp : List Byte → Except Unit String),
        (handleCard s cardId ⟨Except.ok data, dec, dp⟩).2 = Outcome.suppressed ∨
          (handleCard s cardId ⟨Except.ok data, dec, dp⟩).2 = Outcome.noNdef := by
  have hnone : findNdefData data = none := by
    rcases h with ⟨h1, h2⟩ | hshort
    · have hscan1 : scanFirst (validTlvAt data) (data.length - 2) 0 = none := by
        apply scanFirst_eq_none
        intro q _ hq
        cases hval : validTlvAt data q
        · rfl
        · exfalso
          simp only [validTlvAt, Bool.and_eq_true, beq_iff_eq, decide_eq_true_eq] at hval
          exact h1 q (by omega) hval
      have hscan2 : scanFirst (ndefHeaderAt data) (data.length - 3) 0 = none := by
        apply scanFirst_eq_none
        intro q _ hq
        cases hval : ndefHeaderAt data q
        · rfl
        · exfalso
          simp only [ndefHeaderAt, Bool.and_eq_true, bne_iff_ne, ne_eq,
            decide_eq_true_eq] at hval
          exact h2 q (by omega) ⟨hval.1.1, hval.1.2, hval.2⟩
      simp only [findNdefData, hscan1, hscan2]
    · have h2 : data.length - 2 = 0 := by omega
      have h3 : data.length - 3 = 0 := by omega
      simp only [findNdefData, h2, h3, scanFirst]
  refine ⟨hnone, ?_⟩
  intro s cardId dec dp
  by_cases hg : (s.processingCard || s.lastProcessedCard == some cardId) = true
  · left
    simp only [handleCard, hg, if_true]
  · right
    simp only [handleCard, hg, Bool.false_eq_true, if_false, hnone]

theorem findNdefData_noMatch_witness :
    findNdefData [5, 6, 7, 8] = none ∧
      ((handleCard ⟨none, false⟩ "A"
          ⟨Except.ok [5, 6, 7, 8], fun _ => Except.error (), fun _ => Except.error ()⟩).2 =
        Outcome.suppressed ∨
        (handleCard ⟨none, false⟩ "A"
          ⟨Except.ok [5, 6, 7, 8], fun _ => Except.error (), fun _ => Except.error ()⟩).2 =
        Outcome.noNdef) := by
  have h := findNdefData_noMatch [5, 6, 7, 8] (Or.inl ⟨by decide, by decide⟩)
  exact ⟨h.1, h.2 ⟨none, false⟩ "A" (fun _ => Except.error ()) (fun _ => Except.error ())⟩

/-- Case analysis on one card event: either the guard of line 37 fires and the
event is dropped with the state unchanged, or the pipeline runs and the event
ends in state (lastProcessedCard = uid, processingCard = false) with an outcome
other than suppressed. -/
theorem handleCard_cases (s : SessionState) (cardId : String) (env : CardEnv) :
    (handleCard s cardId env = (s, Outcome.suppressed) ∧
      (s.processingCard = true ∨ s.lastProcessedCard = some cardId)) ∨
    ((handleCard s cardId env).1 = ⟨some cardId, false⟩ ∧
      (handleCard s cardId env).2 ≠ Outcome.suppressed ∧
      s.processingCard = false ∧ s.lastProcessedCard ≠ some cardId) := by
  by_cases hg : (s.processingCard || s.lastProcessedCard == some cardId) = true
  · left
    constructor
    · simp only [handleCard, hg, if_true]
    · simpa using hg
  · right
    have hg2 : (s.processingCard || s.lastProcessedCard == some cardId) = false := by
      simpa using hg
    simp only [Bool.or_eq_false_iff, beq_eq_false_iff_ne, ne_eq] at hg2
    refine ?_
    simp only [handleCard, hg, Bool.false_eq_true, if_false]
    rcases env.readResult with e | data
    · simpa using hg2
    · rcases hf : findNdefData data with _ | nd
      · simpa [hf] using hg2
      · rcases hd : env.decode nd with e | records
        · simpa [hf, hd] using hg2
        · rcases hr : filterTextRecords records with _ | ⟨r, rs⟩
          · simpa [hf, hd, hr] using hg2
          · rcases hp2 : env.decodePayload r.payload with e | text
            · simpa [hf, hd, hr, hp2] using hg2
            · simpa [hf, hd, hr, hp2] using hg2

/-- When the guard fires the event is dropped with the state unchanged. -/
theorem handleCard_suppressed (s : SessionState) (cardId : String) (env : CardEnv)
    (h : s.processingCard = true ∨ s.lastProcessedCard = some cardId) :
    handleCard s cardId env = (s, Outcome.suppressed) := by
  have hg : (s.processingCard || s.lastProcessedCard == some cardId) = true := by
    rcases h with h | h <;> simp [h]
  simp only [handleCard, hg, if_true]

/-- C4: on every terminating path of a per-card pipeline run - read error or
any other caught error, no NDEF data, no text record, or successful replay -
the processingCard flag is false in the resulting state; no outcome of the
pipeline leaves the flag set.  (The successful path resets the flag through a
1000 ms setTimeout, which the model folds into the event.) -/
theorem processing_always_released (s : SessionState) (cardId : String) (env : CardEnv)
    (h : (handleCard s cardId env).2 ≠ Outcome.suppressed) :
    (handleCard s cardId env).1.processingCard = false := by
  rcases handleCard_cases s cardId env with ⟨heq, _⟩ | ⟨h1, _, _, _⟩
  · rw [heq] at h
    simp at h
  · rw [h1]

theorem processing_always_released_witness :
    (handleCard ⟨none, false⟩ "A" errEnv).1.processingCard = false :=
  processing_always_released ⟨none, false⟩ "A" errEnv (by decide)

/-- C7 counterexample: with a read that throws, the pipeline for card "A" ends
in errorCaught, yet lastProcessedCard records "A" (it is assigned on line 43,
before the try block, and the catch does not clear it), so a repeated
card-detected event for the same still-present card is suppressed by the
duplicate guard rather than triggering the pipeline again. -/
theorem lastProcessed_failure_counterexample :
    (handleCard ⟨none, false⟩ "A" errEnv).2 = Outcome.errorCaught ∧
      (handleCard ⟨none, false⟩ "A" errEnv).1.lastProcessedCard = some "A" ∧
      (handleCard (handleCard ⟨none, false⟩ "A" errEnv).1 "A" errEnv).2 =
        Outcome.suppressed := by
  decide

/-- C7 (amended): the last-processed identifier is recorded unconditionally when
the pipeline starts, before the read; a card whose processing fails with an
error remains recorded, so every subsequent card-detected event for that same
still-present card - whatever its environment - is suppressed by the duplicate
guard until a card-removed event for that identifier arrives. -/
theorem lastProcessed_recorded_on_failure (s : SessionState) (cardId : String)
    (env : CardEnv) (h : (handleCard s cardId env).2 ≠ Outcome.suppressed) :
    (handleCard s cardId env).1.lastProcessedCard = some cardId ∧
      ∀ env2 : CardEnv,
        (handleCard (handleCard s cardId env).1 cardId env2).2 = Outcome.suppressed := by
  rcases handleCard_cases s cardId env with ⟨heq, _⟩ | ⟨h1, _, _, _⟩
  · rw [heq] at h
    simp at h
  · rw [h1]
    refine ⟨rfl, fun env2 => ?_⟩
    rw [handleCard_suppressed ⟨some cardId, false⟩ cardId env2 (Or.inr rfl)]

theorem lastProcessed_recorded_witness :
    (handleCard ⟨none, false⟩ "B" errEnv).1.lastProcessedCard = some "B" :=
  (lastProcessed_recorded_on_failure ⟨none, false⟩ "B" errEnv (by decide)).1

/-- C5 counterexample: a record with type "T" but TNF = 2 (MIME media type, not
well-known) is selected by the extraction step, which tests only
record.type === "T" (line 65) and never inspects the Type-Name-Format. -/
theorem textFilter_tnf_counterexample :
    filterTextRecords [⟨2, "T", [2, 101, 110]⟩] = [⟨2, "T", [2, 101, 110]⟩] ∧
      (2 : Nat) ≠ 1 := by
  decide

/-- C5 (amended): the text-record extraction selects exactly the records whose
type equals the single character "T", regardless of Type-Name-Format, and
returns the empty selection - hence no replay - exactly when no record has
type "T". -/
theorem filterTextRecords_spec (records : List NdefRecord) :
    (∀ r ∈ filterTextRecords records, r.type = "T") ∧
      (∀ r ∈ records, r.type = "T" → r ∈ filterTextRecords records) ∧
      ((∀ r ∈ records, r.type ≠ "T") → filterTextRecords records = []) := by
  refine ⟨?_, ?_, ?_⟩
  · intro r hr
    have := List.of_mem_filter hr
    simpa using this
  · intro r hr h
    exact List.mem_filter.mpr ⟨hr, by simp [h]⟩
  · intro h
    rw [filterTextRecords, List.filter_eq_nil_iff]
    intro r hr
    simpa using h r hr

theorem filterTextRecords_spec_witness :
    filterTextRecords [⟨1, "U", [104, 105]⟩] = [] :=
  (filterTextRecords_spec [⟨1, "U", [104, 105]⟩]).2.2 (by decide)

/-- The reader events relevant to the session controller: card (detected, with
the collaborators the resulting pipeline would consult) and card.off (removed). -/
inductive Event where
  | card (cardId : String) (env : CardEnv)
  | cardOff (cardId : String)

/-- Whether an outcome means the pipeline actually ran. -/
def triggered : Outcome → Bool
  | Outcome.suppressed => false
  | _ => true

/-- One event step of src/index.js: the card handler together with whether it
triggered a pipeline; the card.off handler never triggers one. -/
def stepEv (s : SessionState) : Event → SessionState × Bool
  | Event.card cardId env =>
    ((handleCard s cardId env).1, triggered (handleCard s cardId env).2)
  | Event.cardOff cardId => (handleCardOff s cardId, false)

/-- State after a sequence of events. -/
def runState (s : SessionState) : List Event → SessionState
  | [] => s
  | e :: es => runState (stepEv s e).1 es

/-- The per-event pipeline-trigger bits along a sequence of events. -/
def runTriggers (s : SessionState) : List Event → List Bool
  | [] => []
  | e :: es => (stepEv s e).2 :: runTriggers (stepEv s e).1 es

/-- Number of pipelines triggered along a sequence of events. -/
def countTriggers (s : SessionState) (evs : List Event) : Nat :=
  (runTriggers s evs).count true

/-- Events of a sequence between two detections of cardId that leave its
suppression status untouched: further detections of the same card, and
removals of other cards. -/
def neutralFor (cardId : String) : Event → Prop
  | Event.card cardId2 _ => cardId2 = cardId
  | Event.cardOff cardId2 => cardId2 ≠ cardId

/-- Whether an event is the removal of the given card. -/
def isCardOffFor (cardId : String) : Event → Bool
  | Event.cardOff cardId2 => cardId2 == cardId
  | Event.card _ _ => false

theorem triggered_eq_true (o : Outcome) : triggered o = true ↔ o ≠ Outcome.suppressed := by
  cases o <;> simp [triggered]

theorem runState_append (s : SessionState) (l1 l2 : List Event) :
    runState s (l1 ++ l2) = runState (runState s l1) l2 := by
  induction l1 generalizing s with
  | nil => rfl
  | cons e es ih =>
    simp only [List.cons_append, runState]
    exact ih _

/-- A pipeline triggers exactly when the guard passes. -/
theorem handleCard_triggers (s : SessionState) (cardId : String) (env : CardEnv)
    (hp : s.processingCard = false) (hl : s.lastProcessedCard ≠ some cardId) :
    triggered (handleCard s cardId env).2 = true := by
  rcases handleCard_cases s cardId env with ⟨_, hg⟩ | ⟨_, h2, _, _⟩
  · rcases hg with hg | hg
    · rw [hp] at hg
      exact absurd hg (by simp)
    · exact absurd hg hl
  · exact (triggered_eq_true _).mpr h2

/-- While lastProcessedCard holds cardId, events that are neutral for cardId
leave lastProcessedCard unchanged: a repeated detection of the same card is
dropped by the guard with the state unchanged, and a removal of a different
card does not clear the field. -/
theorem runState_keeps_lastProcessed (cardId : String) (mid : List Event) :
    ∀ s : SessionState, s.lastProcessedCard = some cardId →
      (∀ e ∈ mid, neutralFor cardId e) →
      (runState s mid).lastProcessedCard = some cardId := by
  induction mid with
  | nil => intro s h _; exact h
  | cons e es ih =>
    intro s h hmid
    have he : neutralFor cardId e := hmid e (List.mem_cons_self e es)
    have hrest : ∀ e2 ∈ es, neutralFor cardId e2 :=
      fun e2 he2 => hmid e2 (List.mem_cons_of_mem e he2)
    cases e with
    | card cardId2 env =>
      have heq : cardId2 = cardId := he
      subst heq
      have hsup := handleCard_suppressed s cardId2 env (Or.inr h)
      rw [runState]
      simp only [stepEv, hsup]
      exact ih s h hrest
    | cardOff cardId2 =>
      have hne : cardId2 ≠ cardId := he
      have hoff : handleCardOff s cardId2 = s := by
        rw [handleCardOff]
        have : (s.lastProcessedCard == some cardId2) = false := by
          rw [h]
          simp only [beq_eq_false_iff_ne, ne_eq, Option.some.injEq]
          exact fun hc => hne hc.symm
        rw [this]
        simp
      rw [runState]
      simp only [stepEv, hoff]
      exact ih s h hrest

/-- Every event leaves processingCard false if it was false before: each
terminating pipeline path resets it, the guard drops the event unchanged, and
card.off does not touch it. -/
theorem runState_processing_false (evs : List Event) :
    ∀ s : SessionState, s.processingCard = false →
      (runState s evs).processingCard = false := by
  induction evs with
  | nil => intro s h; exact h
  | cons e es ih =>
    intro s h
    rw [runState]
    apply ih
    cases e with
    | card cardId env =>
      rcases handleCard_cases s cardId env with ⟨heq, _⟩ | ⟨h1, _, _, _⟩
      · simp only [stepEv, heq, h]
      · simp only [stepEv, h1]
    | cardOff cardId =>
      simp only [stepEv, handleCardOff]
      split
      · exact h
      · exact h

/-- C3 (amended): in every event sequence, two card-detected events for the same
identifier separated only by events neutral for it - no card-removed event for
that identifier and no card-detected event for a different identifier - trigger
at most one pipeline: if the first one triggered, the second is suppressed.
Moreover, after a card-removed event whose identifier matches the stored
last-processed identifier, the next card-detected event for that identifier
triggers the pipeline again.  (A triggering detection of a different card in
between overwrites the stored identifier and re-enables the first card, which
is what the counterexample exhibits.) -/
theorem session_same_card (s0 : SessionState) (pre mid : List Event)
    (cardId : String) (env1 env2 : CardEnv)
    (hmid : ∀ e ∈ mid, neutralFor cardId e) :
    (¬((stepEv (runState s0 pre) (Event.card cardId env1)).2 = true ∧
       (stepEv (runState s0 (pre ++ Event.card cardId env1 :: mid))
         (Event.card cardId env2)).2 = true)) ∧
    (∀ evs : List Event, s0.processingCard = false →
      (runState s0 evs).lastProcessedCard = some cardId →
      (stepEv (runState s0 (evs ++ [Event.cardOff cardId]))
        (Event.card cardId env2)).2 = true) := by
  constructor
  · rintro ⟨h1, h2⟩
    have hns : (handleCard (runState s0 pre) cardId env1).2 ≠ Outcome.suppressed := by
      simp only [stepEv] at h1
      exact (triggered_eq_true _).mp h1
    have hstate : (handleCard (runState s0 pre) cardId env1).1 = ⟨some cardId, false⟩ := by
      rcases handleCard_cases (runState s0 pre) cardId env1 with ⟨heq, _⟩ | ⟨hh, _, _, _⟩
      · rw [heq] at hns
        simp at hns
      · exact hh
    have hcomp : runState s0 (pre ++ Event.card cardId env1 :: mid) =
        runState ((stepEv (runState s0 pre) (Event.card cardId env1)).1) mid := by
      rw [runState_append]
      rfl
    have hlast : (runState s0 (pre ++ Event.card cardId env1 :: mid)).lastProcessedCard =
        some cardId := by
      rw [hcomp]
      apply runState_keeps_lastProcessed cardId mid _ _ hmid
      simp only [stepEv, hstate]
    have hsup := handleCard_suppressed
      (runState s0 (pre ++ Event.card cardId env1 :: mid)) cardId env2 (Or.inr hlast)
    simp only [stepEv, hsup, triggered] at h2
    exact absurd h2 (by simp)
  · intro evs hproc hlast
    have hpf : (runState s0 evs).processingCard = false :=
      runState_processing_false evs s0 hproc
    rw [runState_append]
    have hoff : runState (runState s0 evs) [Event.cardOff cardId] =
        ⟨none, (runState s0 evs).processingCard⟩ := by
      simp only [runState, stepEv, handleCardOff, hlast]
      rw [if_pos (by simp)]
    rw [hoff, hpf]
    simp only [stepEv]
    exact handleCard_triggers ⟨none, false⟩ cardId env2 rfl (by simp)

/-- C3 counterexample: presenting card "A", then card "B", then card "A" again,
with no card-removed event anywhere, triggers the pipeline three times - the
two detections of "A" trigger two full replays - because the triggering
detection of "B" overwrites lastProcessedCard. -/
theorem session_same_card_counterexample :
    runTriggers ⟨none, false⟩
        [Event.card "A" okEnv, Event.card "B" okEnv, Event.card "A" okEnv] =
      [true, true, true] ∧
      isCardOffFor "A" (Event.card "B" okEnv) = false ∧
      (handleCard ⟨none, false⟩ "A" okEnv).2 = Outcome.replayed "hi" := by
  refine ⟨?_, rfl, ?_⟩ <;> rfl

theorem session_same_card_witness :
    ¬((stepEv (runState ⟨none, false⟩ []) (Event.card "A" okEnv)).2 = true ∧
      (stepEv (runState ⟨none, false⟩
          ([] ++ Event.card "A" okEnv :: [Event.cardOff "B"]))
        (Event.card "A" okEnv)).2 = true) :=
  (session_same_card ⟨none, false⟩ [] [Event.cardOff "B"] "A" okEnv okEnv
    (by
      intro e he
      rw [List.mem_singleton] at he
      subst he
      intro hc
      exact absurd hc (by decide))).1

/-- The per-card pipeline of src/unnamed/part_000 lines 26-65: the same read,
scan, decode, filter and decode-payload chain, but with no processingCard flag,
no lastProcessedCard and no guard of any kind. -/
def runPipelineV0 (env : CardEnv) : Outcome :=
  match env.readResult with
  | Except.error _ => Outcome.errorCaught
  | Except.ok data =>
    match findNdefData data with
    | none => Outcome.noNdef
    | some ndefData =>
      match env.decode ndefData with
      | Except.error _ => Outcome.errorCaught
      | Except.ok records =>
        match filterTextRecords records with
        | [] => Outcome.noText
        | r :: _ =>
          match env.decodePayload r.payload with
          | Except.error _ => Outcome.errorCaught
          | Except.ok text => Outcome.replayed text

/-- Event-by-event behaviour of part_000: every card event runs the pipeline
(some outcome); card.off events have no handler there (none). -/
def runV0 : List Event → List (Option Outcome)
  | [] => []
  | Event.card _ env :: es => some (runPipelineV0 env) :: runV0 es
  | Event.cardOff _ :: es => none :: runV0 es

/-- Number of card-detected events in a sequence. -/
def countCardEvents : List Event → Nat
  | [] => 0
  | Event.card _ _ :: es => countCardEvents es + 1
  | Event.cardOff _ :: es => countCardEvents es

/-- Number of pipelines part_000 runs over a sequence of events. -/
def countTriggersV0 (evs : List Event) : Nat :=
  (runV0 evs).countP (fun o => o.isSome)

/-- C10: the two source variants are not behaviorally equivalent at the
card-detected interface.  The part_000 variant keeps no state and runs a full
pipeline for every card-detected event of every sequence; on the sequence that
presents the same card twice with no removal, part_000 runs two pipelines while
src/index.js runs exactly one. -/
theorem variants_not_equivalent :
    (∀ evs : List Event, countTriggersV0 evs = countCardEvents evs) ∧
      countTriggersV0 [Event.card "A" okEnv, Event.card "A" okEnv] = 2 ∧
      countTriggers ⟨none, false⟩ [Event.card "A" okEnv, Event.card "A" okEnv] = 1 := by
  refine ⟨?_, rfl, rfl⟩
  intro evs
  induction evs with
  | nil => rfl
  | cons e es ih =>
    cases e with
    | card cardId env =>
      simp only [runV0, countTriggersV0, countCardEvents, List.countP_cons] at *
      simp [ih]
    | cardOff cardId =>
      simp only [runV0, countTriggersV0, countCardEvents, List.countP_cons] at *
      simp [ih]

/-- One keystroke as emitted by the replay driver: a pressKey/releaseKey pair on
Escape, Tab or Enter, or a typed character. -/
inductive Key where
  | escape
  | tab
  | enter
  | char (c : Char)
deriving DecidableEq

/-- The inner loop of typeText in src/index.js lines 155-166: per character, Tab
for a forward slash, the typed character otherwise. -/
def typeChunk (chunk : List Char) : List Key :=
  chunk.map (fun c => if c = '/' then Key.tab else Key.char c)

/-- The chunk loop of typeText in src/index.js lines 151-170: for i from 0 in
steps of 50, process text.slice(i, i + 50); the setImmediate yield between
chunks emits no keystrokes.  The loop advances i by 50 each iteration, so
text.length iterations of fuel are enough. -/
def chunkLoopAux (text : List Char) : Nat → Nat → List Key
  | 0, _ => []
  | fuel + 1, i =>
    if i < text.length then
      typeChunk ((text.drop i).take 50) ++ chunkLoopAux text fuel (i + 50)
    else []

def chunkLoop (text : List Char) : List Key :=
  chunkLoopAux text text.length 0

/-- The full keystroke sequence of typeText in src/index.js lines 142-185: an
Escape press/release first (lines 147-148, clearing any previous input), then
the chunk loop, then Enter if pressEnter (lines 173-176). -/
def typeTextKeys (text : List Char) (pressEnter : Bool) : List Key :=
  Key.escape :: (chunkLoop text ++ if pressEnter then [Key.enter] else [])

/-- The while loop of typeText in src/unnamed/part_000 lines 112-130: one
keystroke per character; the setImmediate reschedule after every tenth
character resumes at the same index and emits nothing. -/
def typeCharsV0 : List Char → List Key
  | [] => []
  | c :: cs => (if c = '/' then Key.tab else Key.char c) :: typeCharsV0 cs

/-- The full keystroke sequence of typeText in src/unnamed/part_000 lines
108-141: the character loop, then Enter if pressEnter; no Escape. -/
def typeTextKeysV0 (text : List Char) (pressEnter : Bool) : List Key :=
  typeCharsV0 text ++ if pressEnter then [Key.enter] else []

theorem chunkLoopAux_eq (text : List Char) (fuel : Nat) :
    ∀ i : Nat, chunkLoopAux text fuel i =
      ((text.drop i).take (50 * fuel)).map
        (fun c => if c = '/' then Key.tab else Key.char c) := by
  induction fuel with
  | zero => intro i; simp [chunkLoopAux]
  | succ n ih =>
    intro i
    rw [chunkLoopAux]
    by_cases hi : i < text.length
    · rw [if_pos hi, ih (i + 50)]
      have h50 : 50 * (n + 1) = 50 + 50 * n := by ring
      rw [h50, List.take_add, List.map_append, typeChunk]
      rw [List.drop_drop]
    · rw [if_neg hi]
      have hnil : text.drop i = [] := List.drop_eq_nil_of_le (by omega)
      rw [hnil]
      simp

theorem chunkLoop_eq (text : List Char) :
    chunkLoop text = text.map (fun c => if c = '/' then Key.tab else Key.char c) := by
  rw [chunkLoop, chunkLoopAux_eq text text.length 0, List.drop_zero,
    List.take_of_length_le (Nat.le_mul_of_pos_left _ (by norm_num))]

theorem typeCharsV0_eq (text : List Char) :
    typeCharsV0 text = text.map (fun c => if c = '/' then Key.tab else Key.char c) := by
  induction text with
  | nil => rfl
  | cons c cs ih => rw [typeCharsV0, List.map_cons, ih]

/-- C2 counterexample: on the empty string with autoEnter false the claim
requires no keystrokes at all, but typeText of src/index.js emits an Escape
keystroke before the text (lines 147-148); with text "a/" and autoEnter true it
emits four keystrokes where the claim requires three. -/
theorem typeText_escape_counterexample :
    typeTextKeys [] false = [Key.escape] ∧
      typeTextKeys ['a', '/'] true = [Key.escape, Key.char 'a', Key.tab, Key.enter] := by
  decide

/-- C2 (amended): for every text and autoEnter flag, typeText of src/index.js
emits one initial Escape keystroke, then exactly one keystroke per character of
the text in order - Tab for each forward slash, the literal character
otherwise - then exactly one Enter iff autoEnter, and nothing else; the
part_000 variant emits the same sequence without the initial Escape. -/
theorem typeText_keystrokes (text : List Char) (autoEnter : Bool) :
    typeTextKeys text autoEnter =
      Key.escape :: (text.map (fun c => if c = '/' then Key.tab else Key.char c) ++
        if autoEnter then [Key.enter] else []) ∧
    typeTextKeysV0 text autoEnter =
      text.map (fun c => if c = '/' then Key.tab else Key.char c) ++
        if autoEnter then [Key.enter] else [] := by
  constructor
  · rw [typeTextKeys, chunkLoop_eq]
  · rw [typeTextKeysV0, typeCharsV0_eq]

/-- Emission of a keystroke sequence against a fault model: failAt says which
emission indices throw (a nut-js call failing).  The first failing emission
aborts the rest, as a thrown error leaves the typing loop. -/
def emitFrom (failAt : Nat → Bool) : Nat → List Key → Except Unit (List Key)
  | _, [] => Except.ok []
  | n, k :: ks =>
    if failAt n then Except.error ()
    else
      match emitFrom failAt (n + 1) ks with
      | Except.ok rest => Except.ok (k :: rest)
      | Except.error e => Except.error e

/-- The promise of typeText in src/index.js: the whole emission runs inside a
try whose catch logs the error and still calls resolve (lines 179-182), and the
success path also calls resolve (line 178); true means the promise resolved. -/
def typeTextResolves (text : List Char) (autoEnter : Bool) (failAt : Nat → Bool) : Bool :=
  match emitFrom failAt 0 (typeTextKeys text autoEnter) with
  | Except.ok _ => true
  | Except.error _ => true

/-- C9: the promise returned by typeText always resolves and never rejects -
for every input string, every autoEnter flag and every fault pattern of the
keystroke backend, the call completes successfully, so the calling pipeline
cannot distinguish a failed replay from a successful one. -/
theorem typeText_always_resolves (text : List Char) (autoEnter : Bool)
    (failAt : Nat → Bool) : typeTextResolves text autoEnter failAt = true := by
  unfold typeTextResolves
  split <;> rfl

end NFCHid
